import Mathlib

/-!
Verification of the Nightingale NDC calculator core against its specification.

The TypeScript sources are shallowly embedded: JavaScript numbers are
modelled as rationals (ℚ), optional/absent values as `Option`, fallible
operations as `Result`/`Except`, and JS truthiness tests are made explicit
(`x && ...` on a number is falsy at 0 and `undefined`). Floating-point
rounding and `NaN` are outside the numeric model.
-/

namespace NDCCalc

/-! ## Data model (src/lib/types/prescription.ts) -/

/-- Dose range `{min, max}` attached to a parsed SIG. -/
structure DoseRange where
  min : ℚ
  max : ℚ
deriving Repr, DecidableEq

/-- One entry of a detailed dose schedule: `{dose, occurrencesPerDay, label}`. -/
structure ScheduleEntry where
  dose : ℚ
  occurrencesPerDay : Option ℚ
  label : Option String := none
deriving Repr, DecidableEq

/-- Period of a `times_per_period` frequency. -/
inductive Period
  | hour
  | day
  | week
deriving Repr, DecidableEq

/-- Frequency pattern discriminated union (`FrequencyPattern`). -/
inductive Frequency
  | times_per_day (value : ℚ)
  | times_per_period (value : ℚ) (period : Period)
  | specific_times (times : List String)
  | as_needed (maxPerDay : Option ℚ)
deriving Repr, DecidableEq

/-- Structured SIG data (`ParsedSIG`).  The snapshot's `prescription.ts`
predates the dose-range work, but `quantityCalc.ts` and `orchestrator.ts`
in the snapshot read `doseRange` and `doseSchedule` from the record, so
those fields are part of the type.  An absent `doseSchedule` and an empty
one are treated identically by the code, so both are modelled as `[]`. -/
structure ParsedSIG where
  dose : ℚ
  unit : String
  frequency : Frequency
  duration : Option ℚ := none
  specialInstructions : List String := []
  doseRange : Option DoseRange := none
  doseSchedule : List ScheduleEntry := []
  confidence : ℚ
  reasoning : String := ""
  originalSIG : String := ""
deriving Repr, DecidableEq

/-! ## Quantity calculation (src/lib/services/calculator/quantityCalc.ts) -/

/-- `DEFAULT_PRN_MAX_PER_DAY` constant. -/
def DEFAULT_PRN_MAX_PER_DAY : ℚ := 4

/-- `convertToTimesPerDay(value, period)`.  (JS would yield `Infinity` at
`value = 0` for the `hour` case; division by zero is outside the model.) -/
def convertToTimesPerDay (value : ℚ) : Period → ℚ
  | .hour => 24 / value
  | .day => value
  | .week => value / 7

/-- `sig.duration && sig.duration < daysSupply ? sig.duration : daysSupply`:
the `&&` makes a duration of `0` (or an absent one) fall through to
`daysSupply`. -/
def effectiveDays (sig : ParsedSIG) (daysSupply : ℚ) : ℚ :=
  match sig.duration with
  | some dur => if dur ≠ 0 ∧ dur < daysSupply then dur else daysSupply
  | none => daysSupply

/-- `entry.occurrencesPerDay && entry.occurrencesPerDay > 0 ?
entry.occurrencesPerDay : 1` from `calculateFromDoseSchedule`. -/
def scheduleOccurrences (e : ScheduleEntry) : ℚ :=
  match e.occurrencesPerDay with
  | some v => if v ≠ 0 ∧ 0 < v then v else 1
  | none => 1

/-- `calculateFromDoseSchedule(sig, days)`: `null` when the schedule is
absent or empty, otherwise the reduce-accumulated daily total times
`days`. -/
def calculateFromDoseSchedule (sig : ParsedSIG) (days : ℚ) : Option ℚ :=
  if sig.doseSchedule.isEmpty then
    none
  else
    some ((sig.doseSchedule.foldl (fun sum e => sum + e.dose * scheduleOccurrences e) 0) * days)

/-- `sig.frequency.maxPerDay || DEFAULT_PRN_MAX_PER_DAY`: JS `||` falls to
the default when `maxPerDay` is absent or `0`. -/
def prnMaxPerDay (maxPerDay : Option ℚ) : ℚ :=
  match maxPerDay with
  | some v => if v ≠ 0 then v else DEFAULT_PRN_MAX_PER_DAY
  | none => DEFAULT_PRN_MAX_PER_DAY

/-- `sig.doseRange?.max ?? sig.dose`. -/
def doseToUse (sig : ParsedSIG) : ℚ :=
  match sig.doseRange with
  | some r => r.max
  | none => sig.dose

/-- `calculateTotalQuantity(sig, daysSupply)` from `quantityCalc.ts`. -/
def calculateTotalQuantity (sig : ParsedSIG) (daysSupply : ℚ) : ℤ :=
  let effDays := effectiveDays sig daysSupply
  match calculateFromDoseSchedule sig effDays with
  | some scheduled => ⌈scheduled⌉
  | none =>
    match sig.frequency with
    | .times_per_day value => ⌈doseToUse sig * value * effDays⌉
    | .times_per_period value period =>
        ⌈doseToUse sig * convertToTimesPerDay value period * effDays⌉
    | .specific_times times => ⌈doseToUse sig * (times.length : ℚ) * effDays⌉
    | .as_needed maxPerDay => ⌈doseToUse sig * prnMaxPerDay maxPerDay * effDays⌉

/-- Per-day administration count of a frequency variant, as the
non-schedule branch of `calculateTotalQuantity` multiplies it. -/
def dailyFactor : Frequency → ℚ
  | .times_per_day value => value
  | .times_per_period value period => convertToTimesPerDay value period
  | .specific_times times => (times.length : ℚ)
  | .as_needed maxPerDay => prnMaxPerDay maxPerDay

/-- Daily total accumulated by `calculateFromDoseSchedule`. -/
def scheduleDailyTotal (sig : ParsedSIG) : ℚ :=
  sig.doseSchedule.foldl (fun sum e => sum + e.dose * scheduleOccurrences e) 0

/-- Pre-ceiling quantity: the rational value whose ceiling
`calculateTotalQuantity` returns. -/
def rawQuantity (sig : ParsedSIG) (daysSupply : ℚ) : ℚ :=
  if sig.doseSchedule.isEmpty then
    doseToUse sig * dailyFactor sig.frequency * effectiveDays sig daysSupply
  else
    scheduleDailyTotal sig * effectiveDays sig daysSupply

theorem calculateTotalQuantity_eq_ceil_rawQuantity (sig : ParsedSIG) (d : ℚ) :
    calculateTotalQuantity sig d = ⌈rawQuantity sig d⌉ := by
  unfold calculateTotalQuantity rawQuantity calculateFromDoseSchedule
    scheduleDailyTotal dailyFactor
  by_cases h : sig.doseSchedule.isEmpty
  · simp only [h, if_true]
    cases sig.frequency <;> rfl
  · simp [h]

/-- Multiplicative coefficient of `effectiveDays` in `rawQuantity`. -/
def qCoeff (sig : ParsedSIG) : ℚ :=
  if sig.doseSchedule.isEmpty then doseToUse sig * dailyFactor sig.frequency
  else scheduleDailyTotal sig

theorem rawQuantity_eq_qCoeff_mul (sig : ParsedSIG) (d : ℚ) :
    rawQuantity sig d = qCoeff sig * effectiveDays sig d := by
  unfold rawQuantity qCoeff
  by_cases h : sig.doseSchedule.isEmpty <;> simp [h]

/-! ## Validity of dosing records

`ParsedSIGSchema` (src/lib/types/prescription.ts) constrains a parsed
record to a positive `dose`, positive-integer frequency values, a
positive-integer optional `duration`, a non-empty `specific_times` list and
confidence in [0,1].  The snapshot's schema file predates the dose-range
fields; for those, the spec data model (§3: a `{min,max}` pair in the same
unit, dose amounts of a schedule) is mirrored: a positive `min ≤ max`
range and positive schedule doses with positive-integer occurrences. -/

/-- A rational that is a positive integer (what `z.number().positive().int()`
accepts). -/
def IsPosInt (q : ℚ) : Prop := 0 < q ∧ q.den = 1

instance (q : ℚ) : Decidable (IsPosInt q) := by unfold IsPosInt; infer_instance

/-- Frequency as constrained by `FrequencyPatternSchema`. -/
def ValidFrequency : Frequency → Prop
  | .times_per_day value => IsPosInt value
  | .times_per_period value _ => IsPosInt value
  | .specific_times times => times ≠ []
  | .as_needed maxPerDay =>
      match maxPerDay with
      | some v => IsPosInt v
      | none => True

instance (f : Frequency) : Decidable (ValidFrequency f) := by
  unfold ValidFrequency
  cases f with
  | as_needed m => cases m <;> infer_instance
  | _ => infer_instance

/-- Optional duration as constrained by `ParsedSIGSchema`. -/
def ValidDuration : Option ℚ → Prop
  | some t => IsPosInt t
  | none => True

instance (o : Option ℚ) : Decidable (ValidDuration o) := by
  unfold ValidDuration; cases o <;> infer_instance

/-- Optional dose range as mirrored from the spec data model (§3). -/
def ValidRange : Option DoseRange → Prop
  | some r => 0 < r.min ∧ r.min ≤ r.max
  | none => True

instance (o : Option DoseRange) : Decidable (ValidRange o) := by
  unfold ValidRange; cases o <;> infer_instance

/-- A dose-schedule entry with positive dose and positive-integer
occurrence count. -/
def ValidEntry (e : ScheduleEntry) : Prop :=
  0 < e.dose ∧ ValidDuration e.occurrencesPerDay

instance (e : ScheduleEntry) : Decidable (ValidEntry e) := by
  unfold ValidEntry; infer_instance

/-- Dosing record as constrained by `ParsedSIGSchema` and the spec data
model (§3). -/
def ValidSIG (sig : ParsedSIG) : Prop :=
  0 < sig.dose ∧
  ValidFrequency sig.frequency ∧
  ValidDuration sig.duration ∧
  0 ≤ sig.confidence ∧ sig.confidence ≤ 1 ∧
  ValidRange sig.doseRange ∧
  (∀ e ∈ sig.doseSchedule, ValidEntry e)

instance (sig : ParsedSIG) : Decidable (ValidSIG sig) := by
  unfold ValidSIG; infer_instance

theorem effectiveDays_eq_min (sig : ParsedSIG) (d t : ℚ)
    (ht : sig.duration = some t) (ht0 : 0 < t) :
    effectiveDays sig d = min t d := by
  unfold effectiveDays
  rw [ht]
  show (if t ≠ 0 ∧ t < d then t else d) = min t d
  rcases lt_or_ge t d with h | h
  · rw [if_pos ⟨ne_of_gt ht0, h⟩, min_eq_left h.le]
  · rw [if_neg (fun hc => absurd hc.2 (not_lt.mpr h)), min_eq_right h]

theorem effectiveDays_mono (sig : ParsedSIG) (d₁ d₂ : ℚ)
    (hdur : ValidDuration sig.duration) (h : d₁ ≤ d₂) :
    effectiveDays sig d₁ ≤ effectiveDays sig d₂ := by
  cases hdt : sig.duration with
  | none => unfold effectiveDays; rw [hdt]; exact h
  | some t =>
      rw [hdt] at hdur
      have ht : IsPosInt t := hdur
      rw [effectiveDays_eq_min sig d₁ t hdt ht.1, effectiveDays_eq_min sig d₂ t hdt ht.1]
      exact min_le_min le_rfl h

theorem effectiveDays_nonneg (sig : ParsedSIG) (d : ℚ)
    (hdur : ValidDuration sig.duration) (hd : 0 ≤ d) :
    0 ≤ effectiveDays sig d := by
  cases hdt : sig.duration with
  | none => unfold effectiveDays; rw [hdt]; exact hd
  | some t =>
      rw [hdt] at hdur
      have ht : IsPosInt t := hdur
      rw [effectiveDays_eq_min sig d t hdt ht.1]
      exact le_min ht.1.le hd

theorem dailyFactor_nonneg (f : Frequency) (hf : ValidFrequency f) :
    0 ≤ dailyFactor f := by
  cases f with
  | times_per_day v =>
      have hv : IsPosInt v := hf
      exact hv.1.le
  | times_per_period v p =>
      have hv : IsPosInt v := hf
      show 0 ≤ convertToTimesPerDay v p
      cases p with
      | hour => exact div_nonneg (by norm_num) hv.1.le
      | day => exact hv.1.le
      | week => exact div_nonneg hv.1.le (by norm_num)
  | specific_times ts => exact Nat.cast_nonneg _
  | as_needed m =>
      cases m with
      | none =>
          show (0:ℚ) ≤ DEFAULT_PRN_MAX_PER_DAY
          norm_num [DEFAULT_PRN_MAX_PER_DAY]
      | some v =>
          have hv : IsPosInt v := hf
          show (0:ℚ) ≤ if v ≠ 0 then v else DEFAULT_PRN_MAX_PER_DAY
          rw [if_pos (ne_of_gt hv.1)]
          exact hv.1.le

theorem scheduleOccurrences_pos (e : ScheduleEntry) : 0 < scheduleOccurrences e := by
  unfold scheduleOccurrences
  rcases e.occurrencesPerDay with _ | v
  · norm_num
  · show (0:ℚ) < if v ≠ 0 ∧ 0 < v then v else 1
    by_cases h : v ≠ 0 ∧ 0 < v
    · rw [if_pos h]; exact h.2
    · rw [if_neg h]; norm_num

theorem foldl_schedule_nonneg (l : List ScheduleEntry) (init : ℚ)
    (hinit : 0 ≤ init) (hl : ∀ e ∈ l, 0 ≤ e.dose) :
    0 ≤ l.foldl (fun sum e => sum + e.dose * scheduleOccurrences e) init := by
  induction l generalizing init with
  | nil => exact hinit
  | cons e rest ih =>
      apply ih
      · show 0 ≤ init + e.dose * scheduleOccurrences e
        have he : 0 ≤ e.dose := hl e (List.mem_cons_self e rest)
        have hm := mul_nonneg he (scheduleOccurrences_pos e).le
        linarith
      · intro x hx
        exact hl x (List.mem_cons_of_mem e hx)

theorem qCoeff_nonneg (sig : ParsedSIG) (h : ValidSIG sig) : 0 ≤ qCoeff sig := by
  obtain ⟨hdose, hfreq, _, _, _, hdr, hsched⟩ := h
  unfold qCoeff
  by_cases he : sig.doseSchedule.isEmpty
  · rw [if_pos he]
    apply mul_nonneg _ (dailyFactor_nonneg _ hfreq)
    unfold doseToUse
    cases hr : sig.doseRange with
    | none => exact hdose.le
    | some r =>
        rw [hr] at hdr
        have hdr2 : 0 < r.min ∧ r.min ≤ r.max := hdr
        exact (lt_of_lt_of_le hdr2.1 hdr2.2).le
  · rw [if_neg he]
    exact foldl_schedule_nonneg _ 0 le_rfl fun e hmem => (hsched e hmem).1.le

theorem rawQuantity_update_dose (sig : ParsedSIG) (x d : ℚ) :
    rawQuantity { sig with dose := x } d
      = (if sig.doseSchedule.isEmpty then
           (match sig.doseRange with | some r => r.max | none => x)
             * dailyFactor sig.frequency * effectiveDays sig d
         else scheduleDailyTotal sig * effectiveDays sig d) := rfl

/-- Claim C9: `calculateTotalQuantity` is monotonically non-decreasing in
`daysSupply` (for every fixed valid dosing record) and in the record's
`dose` field (two records identical except a larger dose never yield a
smaller quantity). -/
theorem C9_calculateTotalQuantity_monotone :
    (∀ (sig : ParsedSIG) (d₁ d₂ : ℚ), ValidSIG sig → d₁ ≤ d₂ →
      calculateTotalQuantity sig d₁ ≤ calculateTotalQuantity sig d₂) ∧
    (∀ (sig : ParsedSIG) (ds dose₁ dose₂ : ℚ), ValidSIG sig → 0 ≤ ds → dose₁ ≤ dose₂ →
      calculateTotalQuantity { sig with dose := dose₁ } ds
        ≤ calculateTotalQuantity { sig with dose := dose₂ } ds) := by
  constructor
  · intro sig d₁ d₂ hvalid hd
    rw [calculateTotalQuantity_eq_ceil_rawQuantity, calculateTotalQuantity_eq_ceil_rawQuantity]
    apply Int.ceil_le_ceil
    rw [rawQuantity_eq_qCoeff_mul, rawQuantity_eq_qCoeff_mul]
    exact mul_le_mul_of_nonneg_left
      (effectiveDays_mono sig d₁ d₂ hvalid.2.2.1 hd) (qCoeff_nonneg sig hvalid)
  · intro sig ds dose₁ dose₂ hvalid hds hdose
    rw [calculateTotalQuantity_eq_ceil_rawQuantity, calculateTotalQuantity_eq_ceil_rawQuantity]
    apply Int.ceil_le_ceil
    rw [rawQuantity_update_dose, rawQuantity_update_dose]
    by_cases he : sig.doseSchedule.isEmpty
    · rw [if_pos he, if_pos he]
      cases hr : sig.doseRange with
      | some r => exact le_refl _
      | none =>
          show dose₁ * dailyFactor sig.frequency * effectiveDays sig ds
            ≤ dose₂ * dailyFactor sig.frequency * effectiveDays sig ds
          rw [mul_assoc, mul_assoc]
          apply mul_le_mul_of_nonneg_right hdose
          apply mul_nonneg (dailyFactor_nonneg _ hvalid.2.1)
          exact effectiveDays_nonneg _ _ hvalid.2.2.1 hds
    · rw [if_neg he, if_neg he]

/-- Concrete valid record used by witnesses: take 1-2 tablets twice daily. -/
def wSig1 : ParsedSIG :=
  { dose := 1
    unit := "tablet"
    frequency := .times_per_day 2
    doseRange := some ⟨1, 2⟩
    confidence := 1
    reasoning := "clear instruction"
    originalSIG := "Take one to two tablets twice daily" }

/-- Witness for C9 at a concrete record and concrete days supplies. -/
theorem C9_witness :
    ValidSIG wSig1 ∧ (0:ℚ) ≤ 30 ∧ (1:ℚ) ≤ 2 ∧ (3:ℚ) ≤ 30 ∧
    calculateTotalQuantity wSig1 3 ≤ calculateTotalQuantity wSig1 30 ∧
    calculateTotalQuantity { wSig1 with dose := 1 } 30
      ≤ calculateTotalQuantity { wSig1 with dose := 2 } 30 :=
  ⟨by decide, by norm_num, by norm_num, by norm_num,
    C9_calculateTotalQuantity_monotone.1 wSig1 3 30 (by decide) (by norm_num),
    C9_calculateTotalQuantity_monotone.2 wSig1 30 1 2 (by decide) (by norm_num) (by norm_num)⟩

/-- Claim C1: with a `doseRange` present and no dose schedule,
`calculateTotalQuantity` uses `doseRange.max` as the per-administration
dose for all four frequency variants — the result equals
`⌈max × dailyFactor × effectiveDays⌉`, and neither the `dose` field nor
the range's `min` influence it. -/
theorem C1_doseRange_uses_max (sig : ParsedSIG) (d mn mx : ℚ)
    (hsched : sig.doseSchedule = [])
    (hrange : sig.doseRange = some ⟨mn, mx⟩) :
    calculateTotalQuantity sig d
      = ⌈mx * dailyFactor sig.frequency * effectiveDays sig d⌉ ∧
    ∀ dose₂ mn₂,
      calculateTotalQuantity { sig with dose := dose₂, doseRange := some ⟨mn₂, mx⟩ } d
        = calculateTotalQuantity sig d := by
  have hempty : sig.doseSchedule.isEmpty := by rw [hsched]; rfl
  constructor
  · rw [calculateTotalQuantity_eq_ceil_rawQuantity]
    unfold rawQuantity doseToUse
    rw [if_pos hempty, hrange]
  · intro dose₂ mn₂
    rw [calculateTotalQuantity_eq_ceil_rawQuantity, calculateTotalQuantity_eq_ceil_rawQuantity]
    unfold rawQuantity doseToUse effectiveDays dailyFactor scheduleDailyTotal
    simp [hsched, hrange]

/-- Witness for C1 at a concrete record: dose range 1-2, twice daily,
30 days; the result is insensitive to `dose := 5` and `min := 1/2`. -/
theorem C1_witness :
    calculateTotalQuantity wSig1 30
      = ⌈(2:ℚ) * dailyFactor wSig1.frequency * effectiveDays wSig1 30⌉ ∧
    calculateTotalQuantity { wSig1 with dose := 5, doseRange := some ⟨1/2, 2⟩ } 30
      = calculateTotalQuantity wSig1 30 :=
  ⟨(C1_doseRange_uses_max wSig1 30 1 2 rfl rfl).1,
    (C1_doseRange_uses_max wSig1 30 1 2 rfl rfl).2 5 (1/2)⟩

/-! ## Claim C3: the dose-schedule path -/

/-- The dose-schedule formula exactly as claim C3 states it:
`ceil(Σ(entry.dose × max(entry.occurrencesPerDay, 1)) × effectiveDays)`,
an absent `occurrencesPerDay` counting as 1. -/
def claimC3Quantity (sig : ParsedSIG) (daysSupply : ℚ) : ℤ :=
  ⌈(sig.doseSchedule.foldl
      (fun sum e => sum + e.dose * max (e.occurrencesPerDay.getD 1) 1) 0)
    * effectiveDays sig daysSupply⌉

/-- Record with a fractional `occurrencesPerDay` strictly between 0 and 1. -/
def cSig3 : ParsedSIG :=
  { dose := 7
    unit := "unit"
    frequency := .times_per_day 3
    doseSchedule := [⟨1, some (1/2), none⟩]
    confidence := 1 }

/-- Counterexample to claim C3 as stated: for a schedule entry with
`occurrencesPerDay = 1/2`, the code multiplies by `1/2` (the
`occ > 0 ? occ : 1` branch), not by `max(1/2, 1) = 1`, so the result is 5
whereas the claim's formula gives 10. -/
theorem C3_counterexample :
    calculateTotalQuantity cSig3 10 = 5 ∧ claimC3Quantity cSig3 10 = 10 ∧
    calculateTotalQuantity cSig3 10 ≠ claimC3Quantity cSig3 10 := by
  have h₁ : rawQuantity cSig3 10 = 5 := by
    unfold rawQuantity scheduleDailyTotal scheduleOccurrences effectiveDays cSig3
    norm_num
  have hc : calculateTotalQuantity cSig3 10 = 5 := by
    rw [calculateTotalQuantity_eq_ceil_rawQuantity, h₁]
    norm_num
  have h₂ : (cSig3.doseSchedule.foldl
      (fun sum e => sum + e.dose * max (e.occurrencesPerDay.getD 1) 1) 0)
      * effectiveDays cSig3 10 = 10 := by
    have hmax : max ((1:ℚ)/2) 1 = 1 := by norm_num
    unfold cSig3 effectiveDays
    norm_num [hmax]
  have hq : claimC3Quantity cSig3 10 = 10 := by
    unfold claimC3Quantity
    rw [h₂]
    norm_num
  exact ⟨hc, hq, by rw [hc, hq]; norm_num⟩

/-- Claim C3 as amended: with a non-empty `doseSchedule` the result is
`⌈(Σ entry.dose × occ) × effectiveDays⌉` where `occ` is the entry's
`occurrencesPerDay` when positive and 1 otherwise (this coincides with
`max(occurrencesPerDay, 1)` whenever the occurrence count is absent or a
whole number), independent of the record's `dose`, `doseRange` and
`frequency` fields. -/
theorem C3_schedule_priority (sig : ParsedSIG) (d : ℚ)
    (h : sig.doseSchedule ≠ []) :
    calculateTotalQuantity sig d = ⌈scheduleDailyTotal sig * effectiveDays sig d⌉ ∧
    ∀ dose₂ dr₂ fr₂,
      calculateTotalQuantity { sig with dose := dose₂, doseRange := dr₂, frequency := fr₂ } d
        = calculateTotalQuantity sig d := by
  have hne : ¬ sig.doseSchedule.isEmpty := by
    cases hs : sig.doseSchedule with
    | nil => exact absurd hs h
    | cons a l => simp
  constructor
  · rw [calculateTotalQuantity_eq_ceil_rawQuantity]
    unfold rawQuantity
    rw [if_neg hne]
  · intro dose₂ dr₂ fr₂
    rw [calculateTotalQuantity_eq_ceil_rawQuantity, calculateTotalQuantity_eq_ceil_rawQuantity]
    unfold rawQuantity effectiveDays scheduleDailyTotal
    simp [hne]

/-- Witness for the amended C3 at a concrete scheduled record. -/
theorem C3_witness :
    calculateTotalQuantity cSig3 10
      = ⌈scheduleDailyTotal cSig3 * effectiveDays cSig3 10⌉ ∧
    calculateTotalQuantity
        { cSig3 with dose := 9, doseRange := some ⟨1, 2⟩, frequency := .as_needed none } 10
      = calculateTotalQuantity cSig3 10 :=
  ⟨(C3_schedule_priority cSig3 10 (by decide)).1,
    (C3_schedule_priority cSig3 10 (by decide)).2 9 (some ⟨1, 2⟩) (.as_needed none)⟩

/-! ## Warnings (src/lib/types/calculation.ts, orchestrator.ts `collectWarnings`) -/

/-- `WARNING_TYPES`. -/
inductive WarningType
  | inactive_ndc
  | discontinued_ndc
  | dosage_form_mismatch
  | overfill
  | underfill
  | missing_package_size
  | ambiguous_sig
  | low_confidence_parse
  | dose_range_assumption
deriving Repr, DecidableEq, BEq

/-- `WarningSeverity`. -/
inductive Severity
  | info
  | warning
  | error
deriving Repr, DecidableEq, BEq

/-- `Warning` record. -/
structure Warning where
  type : WarningType
  severity : Severity
  message : String
  suggestion : Option String := none
  relatedNDC : Option String := none
deriving Repr, DecidableEq

/-- JS `Math.round`: round half toward positive infinity. -/
def jsRound (q : ℚ) : ℤ := ⌊q + 1/2⌋

/-- `sig.frequency.type === 'as_needed' && !sig.frequency.maxPerDay`: the
negation makes the condition hold for an absent and for a zero
`maxPerDay`. -/
def prnWithoutMax : Frequency → Bool
  | .as_needed none => true
  | .as_needed (some v) => v == 0
  | _ => false

/-- The low-confidence warning pushed by `collectWarnings`. -/
def lowConfidenceWarning (sig : ParsedSIG) : Warning :=
  { type := .low_confidence_parse
    severity := .warning
    message := "Low confidence (" ++ toString sig.confidence
      ++ ") in SIG parsing: " ++ sig.reasoning
    suggestion := some "Review parsed SIG for accuracy" }

/-- The ambiguous-SIG (PRN without maximum) warning pushed by
`collectWarnings`. -/
def ambiguousSigWarning : Warning :=
  { type := .ambiguous_sig
    severity := .info
    message := "PRN dosing without maximum - used conservative estimate of 4 times per day"
    suggestion := some "Verify quantity with prescriber if needed" }

/-- The dose-range-assumption warning pushed by `collectWarnings`. -/
def doseRangeWarning (sig : ParsedSIG) (r : DoseRange) (doseRangeInferred : Bool) : Warning :=
  { type := .dose_range_assumption
    severity := .info
    message := "Prescription specifies a dose range (" ++ toString r.min
      ++ "-" ++ toString r.max ++ " " ++ sig.unit
      ++ "); used maximum for quantity"
      ++ (if doseRangeInferred then " (range inferred from SIG text)" else "")
      ++ "."
    suggestion :=
      some "Confirm whether dispensing the maximum dose for the full duration is appropriate" }

/-- The overfill warning pushed by `collectWarnings`. -/
def overfillWarning (fillDifference quantityNeeded : ℚ) (unit : String) : Warning :=
  { type := .overfill
    severity := .warning
    message := "Overfill of " ++ toString fillDifference ++ " " ++ unit
      ++ " (" ++ toString (jsRound (fillDifference / quantityNeeded * 100))
      ++ "% over needed quantity)"
    suggestion := some "Consider adjusting package selection to reduce waste" }

/-- The underfill warning pushed by `collectWarnings`. -/
def underfillWarning (fillDifference : ℚ) (unit : String) : Warning :=
  { type := .underfill
    severity := .error
    message := "Underfill of " ++ toString |fillDifference| ++ " " ++ unit
    suggestion := some "Additional packages needed to meet prescription requirements" }

/-- `collectWarnings(sig, aiWarnings, fillDifference, quantityNeeded, unit,
options)` from `orchestrator.ts`.  The sequential `push` calls are modelled
as list concatenation in source order.  Numbers inside message texts are
rendered with `toString` (the source's `toFixed`/interpolation formatting
is not modelled further; no claim depends on message texts). -/
def collectWarnings (sig : ParsedSIG) (aiWarnings : List Warning)
    (fillDifference quantityNeeded : ℚ) (unit : String)
    (doseRangeInferred : Bool) : List Warning :=
  (if sig.confidence < 7/10 then [lowConfidenceWarning sig] else []) ++
  (if prnWithoutMax sig.frequency then [ambiguousSigWarning] else []) ++
  (match sig.doseRange with
   | some r => [doseRangeWarning sig r doseRangeInferred]
   | none => []) ++
  (if fillDifference > quantityNeeded * (1/10) then
    [overfillWarning fillDifference quantityNeeded unit]
   else []) ++
  (if fillDifference < 0 then [underfillWarning fillDifference unit] else []) ++
  aiWarnings

/-- An overfill warning with severity `warning`, as claim C8 describes. -/
def isOverfillWarning (w : Warning) : Bool :=
  w.type == WarningType.overfill && w.severity == Severity.warning

/-- An underfill warning with severity `error`, as claim C8 describes. -/
def isUnderfillWarning (w : Warning) : Bool :=
  w.type == WarningType.underfill && w.severity == Severity.error

theorem countP_block_zero (p : Warning → Bool) (c : Prop) [Decidable c]
    (w : Warning) (h : p w = false) :
    (if c then [w] else []).countP p = 0 := by
  split_ifs <;> simp [List.countP_cons, List.countP_nil, h]

theorem countP_block_ite (p : Warning → Bool) (c : Prop) [Decidable c]
    (w : Warning) (h : p w = true) :
    (if c then [w] else []).countP p = if c then 1 else 0 := by
  split_ifs <;> simp [List.countP_cons, List.countP_nil, h]

/-- Claim C8: `collectWarnings` appends exactly one overfill warning of
severity `warning` precisely when `fillDifference > 0.1 × quantityNeeded`,
and exactly one underfill warning of severity `error` precisely when
`fillDifference < 0`, on top of the pass-through AI warnings. -/
theorem C8_overfill_underfill_warnings
    (sig : ParsedSIG) (ai : List Warning) (fd qn : ℚ) (unit : String)
    (dri : Bool) :
    ((collectWarnings sig ai fd qn unit dri).countP isOverfillWarning
      = ai.countP isOverfillWarning + (if fd > qn * (1/10) then 1 else 0)) ∧
    ((collectWarnings sig ai fd qn unit dri).countP isUnderfillWarning
      = ai.countP isUnderfillWarning + (if fd < 0 then 1 else 0)) := by
  have hdrBlock : ∀ p : Warning → Bool,
      (∀ r, p (doseRangeWarning sig r dri) = false) →
      (match sig.doseRange with
        | some r => [doseRangeWarning sig r dri]
        | none => ([] : List Warning)).countP p = 0 := by
    intro p hp
    cases sig.doseRange with
    | none => simp
    | some r => simp [List.countP_cons, List.countP_nil, hp r]
  constructor
  · unfold collectWarnings
    simp only [List.countP_append]
    rw [countP_block_zero _ _ _ rfl, countP_block_zero _ _ _ rfl,
      countP_block_ite _ _ _ rfl, countP_block_zero _ _ _ rfl,
      hdrBlock _ (fun r => rfl)]
    split_ifs <;> omega
  · unfold collectWarnings
    simp only [List.countP_append]
    rw [countP_block_zero _ _ _ rfl, countP_block_zero _ _ _ rfl,
      countP_block_zero _ _ _ rfl, countP_block_ite _ _ _ rfl,
      hdrBlock _ (fun r => rfl)]
    split_ifs <;> omega

/-- Witness for C8 at concrete inputs: need 60, dispense 75 → one overfill
warning and no underfill warning beyond the (empty) AI list. -/
theorem C8_witness :
    ((collectWarnings wSig1 [] 15 60 "tablet" false).countP isOverfillWarning
      = ([] : List Warning).countP isOverfillWarning + (if (15:ℚ) > 60 * (1/10) then 1 else 0)) ∧
    ((collectWarnings wSig1 [] 15 60 "tablet" false).countP isUnderfillWarning
      = ([] : List Warning).countP isUnderfillWarning + (if (15:ℚ) < 0 then 1 else 0)) :=
  C8_overfill_underfill_warnings wSig1 [] 15 60 "tablet" false

/-! ## Results and domain errors (src/lib/types/common.ts, errors.ts) -/

/-- `Result<T, E>` = `{success: true, data} | {success: false, error}`. -/
inductive Result (α : Type) (ε : Type)
  | ok (data : α)
  | err (error : ε)
deriving Repr, DecidableEq

/-- The `NightingaleError` subclasses, by error kind (payload strings keep
the constructor arguments; derived message texts are not modelled). -/
inductive NError
  | validation (field reason : String)
  | ndcNotFound (ndc : String)
  | invalidSIG (sig reason : String)
  | drugNormalization (drugName reason : String)
  | aiService (service reason : String)
  | drugNotFound (drugName : String)
  | externalAPI (apiName reason : String)
deriving Repr, DecidableEq

/-! ## FDA NDC catalog adapter (src/lib/services/external/fdaNdc.ts) -/

/-- NDC marketing status. -/
inductive NDCStatus
  | active
  | inactive
  | discontinued
deriving Repr, DecidableEq

/-- `NDCPackage` (src/lib/types/ndc.ts).  `dosageForm` is carried as a
string and constrained through `NDCPackageSchema` validation, like the
zod enum does. -/
structure NDCPackage where
  ndc : String
  packageSize : ℚ
  dosageForm : String
  strength : String
  manufacturer : String
  status : NDCStatus
  brandName : Option String := none
  genericName : String
  marketingStartDate : Option String := none
  marketingEndDate : Option String := none
  packageDescription : Option String := none
deriving Repr, DecidableEq

/-- `DOSAGE_FORMS`. -/
def DOSAGE_FORMS : List String :=
  ["TABLET", "CAPSULE", "SOLUTION", "SUSPENSION", "INJECTION", "CREAM",
   "OINTMENT", "GEL", "PATCH", "INHALER", "SPRAY", "DROPS", "SUPPOSITORY"]

/-- One entry of `active_ingredients` in an FDA result. -/
structure FDAActiveIngredient where
  name : String
  strength : String
deriving Repr, DecidableEq

/-- One entry of `packaging` in an FDA result. -/
structure FDAPackaging where
  package_ndc : String
  description : String
deriving Repr, DecidableEq

/-- One element of `FDANDCResponse.results`.  An absent `packaging` array
and an empty one are treated identically by the code, so both are `[]`. -/
structure FDAResult where
  product_ndc : String
  generic_name : String
  brand_name : Option String := none
  dosage_form : String
  active_ingredients : List FDAActiveIngredient := []
  packaging : List FDAPackaging := []
  labeler_name : String
  marketing_start_date : Option String := none
  marketing_end_date : Option String := none
  marketing_category : Option String := none
deriving Repr, DecidableEq

/-- `FDANDCResponse`; an absent `results` and an empty one are treated
identically by the code (`!data.results || data.results.length === 0`). -/
structure FDANDCResponse where
  results : List FDAResult := []
deriving Repr, DecidableEq

/-- JS `\s` whitespace class (the characters relevant here). -/
def jsWhitespaceChar (c : Char) : Bool :=
  c = ' ' ∨ c = '\t' ∨ c = '\n' ∨ c = '\r' ∨ c = '\x0c' ∨ c = '\x0b'

/-- Character-level `toUpperCase` (ASCII). -/
def toUpperStr (s : String) : String := String.mk (s.toList.map Char.toUpper)

/-- Character-level `toLowerCase` (ASCII). -/
def toLowerStr (s : String) : String := String.mk (s.toList.map Char.toLower)

/-- Character-level `trim`. -/
def trimStr (s : String) : String :=
  String.mk (((s.toList.dropWhile jsWhitespaceChar).reverse.dropWhile jsWhitespaceChar).reverse)

/-- Character-level emptiness test. -/
def strIsEmpty (s : String) : Bool := s.toList.isEmpty

/-- JS truthiness of an optional string: `undefined` and `""` are falsy. -/
def jsTruthyStr : Option String → Bool
  | some s => !(strIsEmpty s)
  | none => false

/-- `determineStatus(marketingEndDate)`: `inactive` when the (truthy)
marketing end date is present, `active` otherwise. -/
def determineStatus (marketingEndDate : Option String) : NDCStatus :=
  if jsTruthyStr marketingEndDate then .inactive else .active

/-- Digit run to a natural number. -/
def digitsToNat (ds : List Char) : ℕ :=
  ds.foldl (fun acc c => acc * 10 + (c.toNat - '0'.toNat)) 0

/-- `parsePackageSize(description)`: the regex `/^(\d+)\s+/` — a leading
digit run followed by whitespace — parsed as an integer, `0` otherwise. -/
def parsePackageSize (description : String) : ℕ :=
  let cs := description.toList
  let ds := cs.takeWhile Char.isDigit
  let rest := cs.dropWhile Char.isDigit
  if ds.isEmpty then 0
  else
    match rest with
    | c :: _ => if jsWhitespaceChar c then digitsToNat ds else 0
    | [] => 0

/-- `normalizeNDC(ndc)`: strip dashes and spaces, pad 10 digits with a
leading zero. -/
def normalizeNDC (ndc : String) : String :=
  let cleaned := String.mk (ndc.toList.filter (fun c => !(c = '-' ∨ jsWhitespaceChar c)))
  if cleaned.length = 10 then "0" ++ cleaned else cleaned

/-- The variation table in `normalizeDosageForm`. -/
def dosageFormMappings : List (String × String) :=
  [("TABLETS", "TABLET"), ("CAPSULES", "CAPSULE"), ("LIQUID", "SOLUTION"),
   ("SYRUP", "SOLUTION"), ("LOTION", "CREAM"), ("AEROSOL", "SPRAY"),
   ("POWDER", "SUSPENSION")]

/-- `normalizeDosageForm(form)`: uppercase + trim, accept known forms,
fall back to the variation table, else `null`. -/
def normalizeDosageForm (form : String) : Option String :=
  let normalized := trimStr (toUpperStr form)
  if DOSAGE_FORMS.contains normalized then some normalized
  else dosageFormMappings.lookup normalized

/-- `NDCPackageSchema.safeParse` success (src/lib/types/ndc.ts): an
11-digit `ndc`, positive `packageSize`, recognized `dosageForm`; the other
fields are unconstrained strings/options. -/
def validNDCPackage (p : NDCPackage) : Bool :=
  p.ndc.length = 11 && p.ndc.toList.all Char.isDigit &&
  decide (0 < p.packageSize) && DOSAGE_FORMS.contains p.dosageForm

/-- `result.active_ingredients?.[0]?.strength || 'Unknown'`. -/
def strengthOfResult (result : FDAResult) : String :=
  match result.active_ingredients.head? with
  | some ing => if strIsEmpty ing.strength then "Unknown" else ing.strength
  | none => "Unknown"

/-- The `NDCPackage` object literal built inside `searchNDCsByDrug`'s
packaging loop. -/
def buildNDCPackage (result : FDAResult) (dosageForm : String)
    (pkg : FDAPackaging) : NDCPackage :=
  { ndc := normalizeNDC pkg.package_ndc
    packageSize := ((parsePackageSize pkg.description : ℕ) : ℚ)
    dosageForm := dosageForm
    strength := strengthOfResult result
    manufacturer := result.labeler_name
    status := determineStatus result.marketing_end_date
    brandName := result.brand_name
    genericName := result.generic_name
    marketingStartDate := result.marketing_start_date
    marketingEndDate := result.marketing_end_date
    packageDescription := some pkg.description }

/-- One iteration of the packaging loop: skip a zero package size
(`continue`) and a package failing `NDCPackageSchema` validation. -/
def packageOfPackaging (result : FDAResult) (dosageForm : String)
    (pkg : FDAPackaging) : Option NDCPackage :=
  if parsePackageSize pkg.description = 0 then none
  else if validNDCPackage (buildNDCPackage result dosageForm pkg) then
    some (buildNDCPackage result dosageForm pkg)
  else none

/-- The per-result inner loop of `searchNDCsByDrug`: skip results without
packaging or with an unrecognized dosage form, then build one `NDCPackage`
per packaging entry, skipping unparsable package sizes and packages that
fail schema validation. -/
def packagesOfResult (result : FDAResult) : List NDCPackage :=
  if result.packaging.isEmpty then []
  else
    match normalizeDosageForm result.dosage_form with
    | none => []
    | some dosageForm =>
      result.packaging.filterMap (packageOfPackaging result dosageForm)

/-- `searchNDCsByDrug(drugName)` from `fdaNdc.ts`, parameterized by the
outcome of the `fetchJSON` call (`Except.error` covers any thrown
network/HTTP error, which the surrounding `try/catch` turns into a
`DrugNotFoundError`).  The read-through cache is modelled at a cache miss;
a hit only replays a value produced by this same computation earlier. -/
def searchNDCsByDrug (drugName : String)
    (fetched : Except String FDANDCResponse) :
    Result (List NDCPackage) NError :=
  if strIsEmpty (trimStr drugName) then .err (.drugNotFound "")
  else
    match fetched with
    | .error _ => .err (.drugNotFound drugName)
    | .ok data =>
      if data.results.isEmpty then .err (.drugNotFound drugName)
      else
        let packages := data.results.foldr (fun r acc => packagesOfResult r ++ acc) []
        if packages.isEmpty then .err (.drugNotFound drugName)
        else .ok packages

theorem packageOfPackaging_some {result : FDAResult} {dosageForm : String}
    {pkg : FDAPackaging} {p : NDCPackage}
    (h : packageOfPackaging result dosageForm pkg = some p) :
    p = buildNDCPackage result dosageForm pkg ∧
    parsePackageSize pkg.description ≠ 0 := by
  unfold packageOfPackaging at h
  split_ifs at h with h1 h2
  · exact ⟨(Option.some_injective _ h).symm, h1⟩

theorem mem_packagesOfResult {result : FDAResult} {p : NDCPackage}
    (hp : p ∈ packagesOfResult result) :
    p.status = determineStatus result.marketing_end_date ∧
    p.marketingEndDate = result.marketing_end_date ∧
    ∃ n : ℕ, 1 ≤ n ∧ p.packageSize = (n : ℚ) := by
  unfold packagesOfResult at hp
  by_cases hpk : result.packaging.isEmpty
  · rw [if_pos hpk] at hp
    exact absurd hp (List.not_mem_nil p)
  · rw [if_neg hpk] at hp
    cases hdf : normalizeDosageForm result.dosage_form with
    | none => rw [hdf] at hp; exact absurd hp (List.not_mem_nil p)
    | some dosageForm =>
        rw [hdf] at hp
        obtain ⟨pkg, _, hself⟩ := List.mem_filterMap.mp hp
        obtain ⟨rfl, hz⟩ := packageOfPackaging_some hself
        refine ⟨rfl, rfl, parsePackageSize pkg.description, ?_, rfl⟩
        omega

theorem mem_foldr_append {α β : Type} (f : α → List β) (l : List α) (p : β)
    (hp : p ∈ l.foldr (fun r acc => f r ++ acc) []) : ∃ r ∈ l, p ∈ f r := by
  induction l with
  | nil => exact absurd hp (List.not_mem_nil p)
  | cons r rest ih =>
      simp only [List.foldr_cons] at hp
      rcases List.mem_append.mp hp with hl | hr
      · exact ⟨r, List.mem_cons_self r rest, hl⟩
      · obtain ⟨r2, hr2, hp2⟩ := ih hr
        exact ⟨r2, List.mem_cons_of_mem r hr2, hp2⟩

/-- Claim C10: every package in a successful `searchNDCsByDrug` result has
status `inactive` exactly when its source record carried a (truthy)
`marketing_end_date` and `active` otherwise — so `discontinued` is never
produced — and its `packageSize` is at least 1 (unparsable sizes are
dropped, not returned as 0).  The package's `marketingEndDate` field is a
verbatim copy of the source record's, which ties the status test to the
source. -/
theorem C10_searchNDCsByDrug_status_and_size
    (drugName : String) (fetched : Except String FDANDCResponse)
    (pkgs : List NDCPackage)
    (h : searchNDCsByDrug drugName fetched = .ok pkgs) :
    ∀ p ∈ pkgs,
      (p.status = .inactive ↔ jsTruthyStr p.marketingEndDate = true) ∧
      (p.status = .active ↔ jsTruthyStr p.marketingEndDate = false) ∧
      p.status ≠ .discontinued ∧
      1 ≤ p.packageSize := by
  intro p hp
  unfold searchNDCsByDrug at h
  split_ifs at h
  cases fetched with
  | error e => exact absurd h (by simp)
  | ok data =>
      simp only at h
      split_ifs at h
      obtain rfl : data.results.foldr (fun r acc => packagesOfResult r ++ acc) [] = pkgs := by
        cases h; rfl
      obtain ⟨r, _, hpr⟩ := mem_foldr_append packagesOfResult data.results p hp
      obtain ⟨hstatus, hdate, n, hn, hsize⟩ := mem_packagesOfResult hpr
      rw [hstatus, hdate]
      unfold determineStatus
      refine ⟨?_, ?_, ?_, ?_⟩
      · by_cases ht : jsTruthyStr r.marketing_end_date <;> simp [ht]
      · by_cases ht : jsTruthyStr r.marketing_end_date <;> simp [ht]
      · by_cases ht : jsTruthyStr r.marketing_end_date <;> simp [ht]
      · rw [hsize]
        exact_mod_cast hn

/-- Concrete FDA response: one inactive-dated Lisinopril result with one
100-tablet bottle. -/
def wFdaResp : FDANDCResponse :=
  { results :=
      [{ product_ndc := "0006-9287"
         generic_name := "Lisinopril"
         brand_name := some "Prinivil"
         dosage_form := "TABLET"
         active_ingredients := [{ name := "LISINOPRIL", strength := "10 mg/1" }]
         packaging := [{ package_ndc := "0006-9287-41"
                         description := "100 TABLET in 1 BOTTLE" }]
         labeler_name := "Merck"
         marketing_end_date := some "20240101" }] }

/-- The package the adapter builds from `wFdaResp`. -/
def wFdaPkg : NDCPackage :=
  { ndc := "00006928741"
    packageSize := (100 : ℕ)
    dosageForm := "TABLET"
    strength := "10 mg/1"
    manufacturer := "Merck"
    status := .inactive
    brandName := some "Prinivil"
    genericName := "Lisinopril"
    marketingStartDate := none
    marketingEndDate := some "20240101"
    packageDescription := some "100 TABLET in 1 BOTTLE" }

/-- Witness for C10 on a concrete fetched response. -/
theorem C10_witness :
    (wFdaPkg.status = .inactive ↔ jsTruthyStr wFdaPkg.marketingEndDate = true) ∧
    (wFdaPkg.status = .active ↔ jsTruthyStr wFdaPkg.marketingEndDate = false) ∧
    wFdaPkg.status ≠ .discontinued ∧
    1 ≤ wFdaPkg.packageSize :=
  C10_searchNDCsByDrug_status_and_size "Lisinopril" (.ok wFdaResp) [wFdaPkg]
    (by decide) wFdaPkg (List.mem_singleton.mpr rfl)

/-! ## Drug-name and strength matching (orchestrator.ts lines 106-209)

The JS regexes are embedded as explicit character-list scanners with the
same leftmost-match semantics; for these patterns greedy maximal-munch is
equivalent to backtracking (after a digit run the pattern always requires
a non-digit), which keeps the scanners simple. -/

/-- JS `\w` word character (`[A-Za-z0-9_]`), used for `\b` boundaries. -/
def isWordChar (c : Char) : Bool := c.isAlpha ∨ c.isDigit ∨ c = '_'

/-- `\b` after a match: next char absent or not a word char. -/
def boundaryOk : List Char → Bool
  | [] => true
  | c :: _ => !(isWordChar c)

/-- Match a literal character sequence, returning the rest. -/
def matchLit : List Char → List Char → Option (List Char)
  | [], cs => some cs
  | _ :: _, [] => none
  | l :: ls, c :: cs => if c = l then matchLit ls cs else none

/-- One unit alternative followed by a `\b` check. -/
def tryUnitLit (lit : List Char) (cs : List Char) : Option (List Char) :=
  match matchLit lit cs with
  | some rest => if boundaryOk rest then some rest else none
  | none => none

/-- The alternation `(mg|mcg|g|ml|units?|iu)\b` in source order;
`units?` greedily tries the plural first. -/
def matchUnitAlt (cs : List Char) : Option (List Char) :=
  match tryUnitLit ['m', 'g'] cs with
  | some r => some r
  | none =>
  match tryUnitLit ['m', 'c', 'g'] cs with
  | some r => some r
  | none =>
  match tryUnitLit ['g'] cs with
  | some r => some r
  | none =>
  match tryUnitLit ['m', 'l'] cs with
  | some r => some r
  | none =>
  match tryUnitLit ['u', 'n', 'i', 't', 's'] cs with
  | some r => some r
  | none =>
  match tryUnitLit ['u', 'n', 'i', 't'] cs with
  | some r => some r
  | none => tryUnitLit ['i', 'u'] cs

/-- `\d+(\.\d+)?\s*(mg|mcg|g|ml|units?|iu)\b` at the current position
(which already sits at a `\b`); returns the rest after the match. -/
def matchStrengthAt (cs : List Char) : Option (List Char) :=
  let ds := cs.takeWhile Char.isDigit
  if ds.isEmpty then none
  else
    let rest1 := cs.dropWhile Char.isDigit
    let rest2 :=
      match rest1 with
      | '.' :: cs2 =>
          if (cs2.takeWhile Char.isDigit).isEmpty then rest1
          else cs2.dropWhile Char.isDigit
      | _ => rest1
    matchUnitAlt (rest2.dropWhile jsWhitespaceChar)

/-- Global replace of `/\b\d+(\.\d+)?\s*(mg|mcg|g|ml|units?|iu)\b/` by the
empty string, tracking whether the previous kept char is a word char.  The
fuel starts at `length + 1` and every step consumes at least one char, so
it never runs out. -/
def stripStrengthAux : ℕ → Bool → List Char → List Char
  | 0, _, cs => cs
  | _ + 1, _, [] => []
  | fuel + 1, prevW, c :: cs =>
    if !prevW ∧ c.isDigit then
      match matchStrengthAt (c :: cs) with
      | some rest => stripStrengthAux fuel true rest
      | none => c :: stripStrengthAux fuel (isWordChar c) cs
    else c :: stripStrengthAux fuel (isWordChar c) cs

/-- Collapse of `/\s+/g` into single spaces, fuelled like above. -/
def collapseWsAux : ℕ → List Char → List Char
  | 0, cs => cs
  | _ + 1, [] => []
  | fuel + 1, c :: cs =>
    if jsWhitespaceChar c then ' ' :: collapseWsAux fuel (cs.dropWhile jsWhitespaceChar)
    else c :: collapseWsAux fuel cs

/-- `normalizeDrugNameForMatch(name)`: lowercase, strip strength tokens,
turn `[^a-z\s]` into spaces, collapse whitespace, trim. -/
def normalizeDrugNameForMatch (name : String) : String :=
  let lowered := (toLowerStr name).toList
  let stripped := stripStrengthAux (lowered.length + 1) false lowered
  let spaced := stripped.map
    (fun c => if ('a' ≤ c ∧ c ≤ 'z') ∨ jsWhitespaceChar c then c else ' ')
  trimStr (String.mk (collapseWsAux (spaced.length + 1) spaced))

/-- `String.prototype.includes`: contiguous substring test. -/
def strIncludes (hay needle : String) : Bool :=
  let h := hay.toList
  let n := needle.toList
  (List.range (h.length + 1)).any (fun i => n.isPrefixOf (h.drop i))

/-- Word occurrence with `\b` on both sides, for `\b(and|with)\b`. -/
def hasWordAt (cs w : List Char) : Bool :=
  (List.range (cs.length + 1)).any (fun i =>
    (decide (i = 0) || !(match (cs.take i).getLast? with
      | some c => isWordChar c
      | none => false)) &&
    w.isPrefixOf (cs.drop i) &&
    boundaryOk ((cs.drop i).drop w.length))

/-- `MULTI_INGREDIENT_PATTERN = /\b(and|with)\b|\/|,/i` test. -/
def multiIngredientTest (s : String) : Bool :=
  let cs := (toLowerStr s).toList
  cs.contains '/' || cs.contains ',' ||
    hasWordAt cs ['a', 'n', 'd'] || hasWordAt cs ['w', 'i', 't', 'h']

/-- `normalizeStrength(strength)`: lowercase and remove all whitespace.
The source's final `replace(/(\d+(?:\.\d+)?)(mg|...)/i, '$1$2')` puts the
two adjacent capture groups back verbatim, i.e. it is the identity, so it
adds nothing here. -/
def normalizeStrength (strength : String) : String :=
  String.mk ((toLowerStr strength).toList.filter (fun c => !(jsWhitespaceChar c)))

/-- `strengthsMatch(requestedStrength, packageStrength)`. -/
def strengthsMatch (requestedStrength packageStrength : String) : Bool :=
  normalizeStrength requestedStrength == normalizeStrength packageStrength

/-- `filterNDCsByStrength(ndcs, requestedStrength)`; a falsy (empty)
package strength is rejected outright. -/
def filterNDCsByStrength (ndcs : List NDCPackage) (requestedStrength : String) :
    List NDCPackage :=
  ndcs.filter (fun pkg =>
    if strIsEmpty pkg.strength then false
    else strengthsMatch requestedStrength pkg.strength)

/-- `filterNDCsByDrugName(ndcs, normalizedDrugName)`: keep a package when
its normalized generic name contains the requested token and the raw
generic name does not look multi-ingredient, or when its normalized brand
name contains the token. -/
def filterNDCsByDrugName (ndcs : List NDCPackage) (normalizedDrugName : String) :
    List NDCPackage :=
  if strIsEmpty normalizedDrugName then ndcs
  else
    ndcs.filter (fun pkg =>
      let genericName :=
        if strIsEmpty pkg.genericName then "" else normalizeDrugNameForMatch pkg.genericName
      let brandName :=
        match pkg.brandName with
        | some b => if strIsEmpty b then "" else normalizeDrugNameForMatch b
        | none => ""
      let isMultiIngredient :=
        if strIsEmpty pkg.genericName then false else multiIngredientTest pkg.genericName
      if !(strIsEmpty genericName) && strIncludes genericName normalizedDrugName then
        !isMultiIngredient
      else if !(strIsEmpty brandName) && strIncludes brandName normalizedDrugName then
        true
      else false)

/-! ## Strength extraction and dose-range inference -/

/-- Result of splitting a drug name into base name and strength token. -/
structure ExtractedDrugName where
  baseName : String
  strength : Option String
deriving Repr, DecidableEq

/-- Modelled from the spec: `extractBaseDrugName` is imported by the
orchestrator from `$lib/services/external` but its defining module is not
in the repository snapshot.  Spec §4.2: split a free-text drug name into
`{baseName, strengthToken}` by locating a trailing numeric+unit token
(mg, mcg, g, mL, units, IU): the trailing `digits(.digits)? ws* unit s?`
suffix (case-insensitive) becomes the strength token (number and unit
concatenated), the rest is the trimmed base name. -/
def extractBaseDrugName (name : String) : ExtractedDrugName :=
  let cs := name.toList
  let attempt := (List.range cs.length).findSome? (fun i =>
    let tail := (cs.drop i).map Char.toLower
    let ds := tail.takeWhile Char.isDigit
    if ds.isEmpty then none
    else
      let rest1 := tail.dropWhile Char.isDigit
      let (frac, rest2) :=
        match rest1 with
        | '.' :: cs2 =>
            if (cs2.takeWhile Char.isDigit).isEmpty then (([] : List Char), rest1)
            else ('.' :: cs2.takeWhile Char.isDigit, cs2.dropWhile Char.isDigit)
        | _ => ([], rest1)
      match matchUnitAlt (rest2.dropWhile jsWhitespaceChar) with
      | some rest3 =>
          if (rest3.dropWhile jsWhitespaceChar).isEmpty then
            let unitLen := (rest2.dropWhile jsWhitespaceChar).length - rest3.length
            let unitCs := (rest2.dropWhile jsWhitespaceChar).take unitLen
            some (trimStr (String.mk (cs.take i)), String.mk (ds ++ frac ++ unitCs))
          else none
      | none => none)
  match attempt with
  | some (base, strength) => { baseName := base, strength := some strength }
  | none => { baseName := trimStr name, strength := none }

/-- Decimal digits (integer and fraction parts) to a rational, as
`parseFloat` reads them. -/
def parseDecimal (intPart fracPart : List Char) : ℚ :=
  (digitsToNat intPart : ℚ) + (digitsToNat fracPart : ℚ) / ((10 ^ fracPart.length : ℕ) : ℚ)

/-- `\d+(?:\.\d+)?` at the current position, returning the parsed value
and the rest. -/
def parseNumberAt (cs : List Char) : Option (ℚ × List Char) :=
  let ds := cs.takeWhile Char.isDigit
  if ds.isEmpty then none
  else
    let rest1 := cs.dropWhile Char.isDigit
    match rest1 with
    | '.' :: cs2 =>
        let fs := cs2.takeWhile Char.isDigit
        if fs.isEmpty then some ((digitsToNat ds : ℚ), rest1)
        else some (parseDecimal ds fs, cs2.dropWhile Char.isDigit)
    | _ => some ((digitsToNat ds : ℚ), rest1)

/-- `(\d+(?:\.\d+)?)\s*-\s*(\d+(?:\.\d+)?)\s*UNITs?` (case-insensitive) at
the current position; the trailing `s?` can never fail. -/
def matchRangeAt (unitLower : List Char) (cs : List Char) : Option (ℚ × ℚ) :=
  match parseNumberAt cs with
  | none => none
  | some (mn, r1) =>
    match r1.dropWhile jsWhitespaceChar with
    | '-' :: r2 =>
      match parseNumberAt (r2.dropWhile jsWhitespaceChar) with
      | none => none
      | some (mx, r3) =>
        match matchLit unitLower ((r3.dropWhile jsWhitespaceChar).map Char.toLower) with
        | some _ => some (mn, mx)
        | none => none
    | _ => none

/-- `inferDoseRangeFromText(sigText, unit)` from `orchestrator.ts`:
leftmost match of the range pattern (the regex-escaping of the unit is a
no-op for the letter-only medication units); `NaN` is unreachable for
digit-built numbers, and a reversed range yields `null`. -/
def inferDoseRangeFromText (sigText : String) (unit : String) : Option DoseRange :=
  let cs := sigText.toList
  let unitLower := (toLowerStr unit).toList
  match (List.range (cs.length + 1)).findSome?
      (fun i => matchRangeAt unitLower (cs.drop i)) with
  | none => none
  | some (mn, mx) => if mx < mn then none else some ⟨mn, mx⟩

/-- `enhanceParsedSIG(parsedSIG, originalSIG)`: attach an inferred dose
range when the parser produced none; the boolean records whether inference
happened. -/
def enhanceParsedSIG (parsedSIG : ParsedSIG) (originalSIG : String) :
    ParsedSIG × Bool :=
  match parsedSIG.doseRange with
  | some _ => (parsedSIG, false)
  | none =>
    match inferDoseRangeFromText originalSIG parsedSIG.unit with
    | some r => ({ parsedSIG with doseRange := some r }, true)
    | none => (parsedSIG, false)

/-! ## AI package selector (src/lib/services/ai/ndcSelector.ts)

`selectOptimalNDCs` is parameterized by the outcome of its `chatCompletion`
call: `Result.err` covers an API failure, an empty response or unparsable
JSON (all returned as `AIServiceError` by `chatCompletion` itself); a
`Result.ok` carries the parsed JSON.  The zod structural checks on that
JSON beyond shape are the semantic ones on `quantity`
(`z.number().positive().int()`); string-shaped fields are carried by
typing. -/

/-- One entry of the AI's `selectedPackages` JSON. -/
structure AISelectedPackageRaw where
  ndc : String
  quantity : ℚ
  reasoning : String
deriving Repr, DecidableEq

/-- The AI selection JSON (`AISelectionOutputSchema` shape). -/
structure AISelectionRaw where
  selectedPackages : List AISelectedPackageRaw
  warnings : List Warning
  overallReasoning : String
deriving Repr, DecidableEq

/-- `SelectedPackage` (src/lib/types/calculation.ts). -/
structure SelectedPackage where
  package : NDCPackage
  quantity : ℚ
  totalUnits : ℚ
deriving Repr, DecidableEq

/-- `NDCSelectionOutput`. -/
structure NDCSelectionOutput where
  selectedPackages : List SelectedPackage
  reasoning : String
  warnings : List Warning
deriving Repr, DecidableEq

/-- `NDCSelectionInput` as the orchestrator builds it (`parsedSIG` and
`prescriptionContext` only feed the prompt). -/
structure NDCSelectionInput where
  availableNDCs : List NDCPackage
  quantityNeeded : ℚ
  unit : String
  daysSupply : ℚ
  parsedSIG : Option ParsedSIG := none
  prescriptionContext : Option String := none
deriving Repr, DecidableEq

/-- Outcome of the selector adapter, distinguishing a returned failure
`Result` from an exception escaping to the caller (a rejected promise). -/
inductive SelOutcome
  | ok (out : NDCSelectionOutput)
  | fail (e : NError)
  | thrown (e : NError)
deriving Repr, DecidableEq

/-- The `quantity` checks of `AISelectionOutputSchema`
(`z.number().positive().int()` on each selected package). -/
def validAISelection (raw : AISelectionRaw) : Bool :=
  raw.selectedPackages.all
    (fun s => decide (0 < s.quantity) && decide (s.quantity.den = 1))

/-- The `.map` over AI selections: look each NDC up among the available
packages — `throw`ing an `AIServiceError` on the first miss — and build
`{package, quantity, totalUnits = packageSize × quantity}`. -/
def mapSelections (avail : List NDCPackage) :
    List AISelectedPackageRaw → Except NError (List SelectedPackage)
  | [] => .ok []
  | s :: rest =>
    match avail.find? (fun ndc => ndc.ndc == s.ndc) with
    | none => .error (.aiService "NDC Selector"
        ("AI selected NDC " ++ s.ndc ++ " which is not in available packages"))
    | some ndcPackage =>
      match mapSelections avail rest with
      | .ok l => .ok ({ package := ndcPackage
                        quantity := s.quantity
                        totalUnits := ndcPackage.packageSize * s.quantity } :: l)
      | .error e => .error e

/-- `selectOptimalNDCs(input)` from `ndcSelector.ts`.  The `throw` inside
the `.map` is not caught anywhere in the function, so it surfaces as
`SelOutcome.thrown`. -/
def selectOptimalNDCs (input : NDCSelectionInput)
    (aiResponse : Result AISelectionRaw NError) : SelOutcome :=
  if input.availableNDCs.isEmpty then
    .fail (.aiService "NDC Selector" "No NDC packages available for selection")
  else if input.quantityNeeded ≤ 0 then
    .fail (.aiService "NDC Selector" "Quantity needed must be positive")
  else
    match aiResponse with
    | .err e => .fail e
    | .ok raw =>
      if validAISelection raw then
        match mapSelections input.availableNDCs raw.selectedPackages with
        | .error e => .thrown e
        | .ok selectedPackages =>
          if selectedPackages.isEmpty then
            .fail (.aiService "NDC Selector" "AI did not select any packages")
          else
            .ok { selectedPackages := selectedPackages
                  reasoning := raw.overallReasoning
                  warnings := raw.warnings }
      else .fail (.aiService "NDC Selector" "AI returned invalid selection structure")

/-! ## Orchestrator (src/lib/services/calculator/orchestrator.ts)

`calculatePrescription` is parameterized by the adapter outcomes of one
run (`OrchestratorEnv`): the parse-SIG result, the RxCUI normalization
result, the two possible catalog searches, and the raw AI selection
response consumed inside `selectOptimalNDCs`.  The source's `let`-bound
intermediates are named top-level definitions of `input`/`env`/`sig0`.
The source also calls `extractBaseDrugName` up front; its two components
(`extractedBaseName`, `requestedStrength`) are never read afterwards. -/

/-- `PrescriptionInput`. -/
structure PrescriptionInput where
  drugName : String
  ndc : Option String := none
  sig : String
  daysSupply : ℚ
deriving Repr, DecidableEq

/-- `PrescriptionInputSchema.safeParse` success: drug name 1-200 chars,
optional 11-digit NDC, SIG 1-500 chars, days supply a positive integer of
at most 365. -/
def validateInput (input : PrescriptionInput) : Bool :=
  (1 ≤ input.drugName.length && input.drugName.length ≤ 200) &&
  (match input.ndc with
   | some n => n.length = 11 && n.toList.all Char.isDigit
   | none => true) &&
  (1 ≤ input.sig.length && input.sig.length ≤ 500) &&
  (decide (0 < input.daysSupply) && decide (input.daysSupply.den = 1) &&
    decide (input.daysSupply ≤ 365))

/-- `RxNormConcept`. -/
structure RxNormConcept where
  rxcui : String
  name : String
  tty : Option String := none
deriving Repr, DecidableEq

/-- `CalculationContext`: the partial bag mutated during a run. -/
structure CalculationContext where
  parsedSIG : Option ParsedSIG := none
  rxcui : Option String := none
  quantityNeeded : Option ℤ := none
  doseRangeInferred : Option Bool := none
deriving Repr, DecidableEq

/-- `Object.keys(context).length > 0`. -/
def contextNonempty (ctx : CalculationContext) : Bool :=
  ctx.parsedSIG.isSome || ctx.rxcui.isSome || ctx.quantityNeeded.isSome ||
    ctx.doseRangeInferred.isSome

/-- The `failure` helper: attach the context only when non-empty. -/
def someCtx (ctx : CalculationContext) : Option CalculationContext :=
  if contextNonempty ctx then some ctx else none

/-- `CalculationResult`. -/
structure CalculationResult where
  parsedSIG : ParsedSIG
  totalQuantityNeeded : ℤ
  unit : String
  selectedPackages : List SelectedPackage
  totalUnitsDispensed : ℚ
  fillDifference : ℚ
  reasoning : String
  warnings : List Warning
  rxcui : Option String := none
  availableNDCs : Option (List NDCPackage) := none
deriving Repr, DecidableEq

/-- `CalculationOutcome`, plus a `crashed` case for an exception escaping
the orchestrator (it does not catch the selector's `throw`). -/
inductive CalcOutcome
  | success (data : CalculationResult)
  | failure (error : NError) (context : Option CalculationContext)
  | crashed (error : NError)
deriving Repr, DecidableEq

/-- Adapter outcomes of one `calculatePrescription` run. -/
structure OrchestratorEnv where
  sigResult : Result ParsedSIG NError
  rxcuiResult : Result RxNormConcept NError
  ndcsResult1 : Result (List NDCPackage) NError
  ndcsResult2 : Result (List NDCPackage) NError
  aiSelection : Result AISelectionRaw NError
deriving Repr, DecidableEq

/-- The enhanced parsed SIG (`enhanceParsedSIG(...).sig`). -/
def enhancedSIG (sig0 : ParsedSIG) (input : PrescriptionInput) : ParsedSIG :=
  (enhanceParsedSIG sig0 input.sig).1

/-- The `doseRangeInferred` flag of the enhancement step. -/
def inferredFlag (sig0 : ParsedSIG) (input : PrescriptionInput) : Bool :=
  (enhanceParsedSIG sig0 input.sig).2

/-- `drugNameForSearch`: the RxCUI concept name when normalization
succeeded and the name is truthy, else the raw input drug name. -/
def drugNameForSearch (input : PrescriptionInput) (env : OrchestratorEnv) : String :=
  match env.rxcuiResult with
  | .ok c => if strIsEmpty c.name then input.drugName else c.name
  | .err _ => input.drugName

/-- Step 4 of the source: search with `drugNameForSearch`, and if that
fails and differs from the raw drug name, retry once with the raw name. -/
def fetchNdcsStep (input : PrescriptionInput) (env : OrchestratorEnv) :
    Result (List NDCPackage) NError :=
  match env.ndcsResult1 with
  | .ok pkgs => .ok pkgs
  | .err e =>
    if drugNameForSearch input env ≠ input.drugName then env.ndcsResult2
    else .err e

/-- `ndcsResult.data.filter((ndc) => ndc.status === 'active')`. -/
def activeOf (ndcs : List NDCPackage) : List NDCPackage :=
  ndcs.filter (fun ndc => ndc.status == NDCStatus.active)

/-- The name fed to `normalizeDrugNameForMatch`: the RxCUI concept name on
success (without the truthiness fallback used for search), else the raw
drug name. -/
def nameForMatch (input : PrescriptionInput) (env : OrchestratorEnv) : String :=
  match env.rxcuiResult with
  | .ok c => c.name
  | .err _ => input.drugName

/-- `candidateNDCs`: ingredient-matched packages when non-empty, else the
whole active set. -/
def computeCandidates (activeNDCs : List NDCPackage) (normalizedName : String) :
    List NDCPackage :=
  let ingredientMatched := filterNDCsByDrugName activeNDCs normalizedName
  if ingredientMatched.length > 0 then ingredientMatched else activeNDCs

/-- The candidate set of a run that reached step 5. -/
def candidatesOf (input : PrescriptionInput) (env : OrchestratorEnv)
    (ndcs : List NDCPackage) : List NDCPackage :=
  computeCandidates (activeOf ndcs) (normalizeDrugNameForMatch (nameForMatch input env))

/-- `quantityNeeded = calculateTotalQuantity(parsedSIG, daysSupply)`. -/
def quantityOf (input : PrescriptionInput) (sig0 : ParsedSIG) : ℤ :=
  calculateTotalQuantity (enhancedSIG sig0 input) input.daysSupply

/-- `rxcui` captured for the result/context. -/
def rxcuiOfEnv (env : OrchestratorEnv) : Option String :=
  match env.rxcuiResult with
  | .ok c => some c.rxcui
  | .err _ => none

/-- Context state after steps 2-3 (parsed SIG, inference flag, rxcui). -/
def ctxBeforeQuantity (input : PrescriptionInput) (env : OrchestratorEnv)
    (sig0 : ParsedSIG) : CalculationContext :=
  { parsedSIG := some (enhancedSIG sig0 input)
    rxcui := rxcuiOfEnv env
    quantityNeeded := none
    doseRangeInferred := if inferredFlag sig0 input then some true else none }

/-- Context state once `quantityNeeded` has been computed. -/
def ctxAfterQuantity (input : PrescriptionInput) (env : OrchestratorEnv)
    (sig0 : ParsedSIG) : CalculationContext :=
  { ctxBeforeQuantity input env sig0 with quantityNeeded := some (quantityOf input sig0) }

/-- The `NDCSelectionInput` object the orchestrator passes to
`selectOptimalNDCs`. -/
def selectionInputOf (input : PrescriptionInput) (env : OrchestratorEnv)
    (sig0 : ParsedSIG) (ndcs : List NDCPackage) : NDCSelectionInput :=
  { availableNDCs := candidatesOf input env ndcs
    quantityNeeded := ((quantityOf input sig0 : ℤ) : ℚ)
    unit := (enhancedSIG sig0 input).unit
    daysSupply := input.daysSupply
    parsedSIG := some (enhancedSIG sig0 input)
    prescriptionContext := some (input.drugName ++ " - " ++ input.sig) }

/-- Step 7: the assembled `CalculationResult` of a successful run. -/
def successResultOf (input : PrescriptionInput) (env : OrchestratorEnv)
    (sig0 : ParsedSIG) (selection : NDCSelectionOutput) (ndcs : List NDCPackage) :
    CalculationResult :=
  { parsedSIG := enhancedSIG sig0 input
    totalQuantityNeeded := quantityOf input sig0
    unit := (enhancedSIG sig0 input).unit
    selectedPackages := selection.selectedPackages
    totalUnitsDispensed :=
      selection.selectedPackages.foldl (fun sum pkg => sum + pkg.totalUnits) 0
    fillDifference :=
      selection.selectedPackages.foldl (fun sum pkg => sum + pkg.totalUnits) 0
        - ((quantityOf input sig0 : ℤ) : ℚ)
    reasoning := selection.reasoning
    warnings := collectWarnings (enhancedSIG sig0 input) selection.warnings
      (selection.selectedPackages.foldl (fun sum pkg => sum + pkg.totalUnits) 0
        - ((quantityOf input sig0 : ℤ) : ℚ))
      ((quantityOf input sig0 : ℤ) : ℚ) (enhancedSIG sig0 input).unit
      (inferredFlag sig0 input)
    rxcui := rxcuiOfEnv env
    availableNDCs := some (candidatesOf input env ndcs) }

/-- `calculatePrescription(input)` from `orchestrator.ts`, one run over
given adapter outcomes. -/
def calculatePrescription (input : PrescriptionInput) (env : OrchestratorEnv) :
    CalcOutcome :=
  if validateInput input then
    match env.sigResult with
    | .err e => .failure e none
    | .ok sig0 =>
      match fetchNdcsStep input env with
      | .err e => .failure e (someCtx (ctxBeforeQuantity input env sig0))
      | .ok ndcs =>
        if (activeOf ndcs).isEmpty then
          .failure (.ndcNotFound ("No active NDCs found for " ++ input.drugName))
            (someCtx (ctxBeforeQuantity input env sig0))
        else if quantityOf input sig0 ≤ 0 then
          .failure (.invalidSIG input.sig
              "Cannot calculate quantity from parsed SIG - result is zero or negative")
            (someCtx (ctxAfterQuantity input env sig0))
        else
          match selectOptimalNDCs (selectionInputOf input env sig0 ndcs)
              env.aiSelection with
          | .thrown e => .crashed e
          | .fail e => .failure e (someCtx (ctxAfterQuantity input env sig0))
          | .ok selection => .success (successResultOf input env sig0 selection ndcs)
  else .failure (.validation "input" "invalid input") none

/-! ## Claim C5: adapter never throws -/

/-- Available package for the C5 failing input. -/
def cSelPkg : NDCPackage :=
  { ndc := "00000000001"
    packageSize := 30
    dosageForm := "TABLET"
    strength := "500mg"
    manufacturer := "M"
    status := .active
    genericName := "Metformin" }

/-- Selection input for the C5 failing input. -/
def cSelInput : NDCSelectionInput :=
  { availableNDCs := [cSelPkg]
    quantityNeeded := 30
    unit := "tablet"
    daysSupply := 30 }

/-- A schema-valid LLM response that selects an NDC absent from the
available packages. -/
def cBadAIResponse : Result AISelectionRaw NError :=
  .ok { selectedPackages := [{ ndc := "99999999999", quantity := 1, reasoning := "pick" }]
        warnings := []
        overallReasoning := "r" }

/-- Claim C5 is violated by the code: on an LLM response that names an NDC
not among the available packages, `selectOptimalNDCs` raises an
`AIServiceError` from inside its `.map` instead of returning a failure
`Result` — the exception escapes to the caller (`SelOutcome.thrown`),
contradicting the function's own `Promise<Result<...>>` contract. -/
theorem C5_selectOptimalNDCs_throws :
    selectOptimalNDCs cSelInput cBadAIResponse
      = .thrown (.aiService "NDC Selector"
          "AI selected NDC 99999999999 which is not in available packages") := by
  decide

/-! ## Claim C4: success invariants -/

theorem posInt_one_le {q : ℚ} (hpos : 0 < q) (hden : q.den = 1) : 1 ≤ q := by
  have hq : ((q.num : ℤ) : ℚ) = q := by
    conv_rhs => rw [← Rat.num_div_den q]
    rw [hden]
    simp
  have hnum : 0 < q.num := Rat.num_pos.mpr hpos
  have h1 : ((1 : ℤ) : ℚ) ≤ ((q.num : ℤ) : ℚ) := by exact_mod_cast hnum
  simpa [hq] using h1

theorem mapSelections_ok {avail : List NDCPackage} :
    ∀ {raws : List AISelectedPackageRaw} {sel : List SelectedPackage},
    (∀ s ∈ raws, 0 < s.quantity ∧ s.quantity.den = 1) →
    mapSelections avail raws = .ok sel →
    ∀ sp ∈ sel, sp.totalUnits = sp.package.packageSize * sp.quantity ∧
      1 ≤ sp.quantity ∧ sp.quantity.den = 1 := by
  intro raws
  induction raws with
  | nil =>
      intro sel _ h sp hsp
      obtain rfl : ([] : List SelectedPackage) = sel := by
        unfold mapSelections at h
        exact Except.ok.inj h
      exact absurd hsp (List.not_mem_nil sp)
  | cons s rest ih =>
      intro sel hval h sp hsp
      unfold mapSelections at h
      cases hfind : avail.find? (fun ndc => ndc.ndc == s.ndc) with
      | none => rw [hfind] at h; exact Except.noConfusion h
      | some ndcPackage =>
          rw [hfind] at h
          simp only [] at h
          cases hrest : mapSelections avail rest with
          | error e => rw [hrest] at h; exact Except.noConfusion h
          | ok l =>
              rw [hrest] at h
              simp only [] at h
              obtain rfl := Except.ok.inj h
              rcases List.mem_cons.mp hsp with rfl | htail
              · have hs := hval s (List.mem_cons_self s rest)
                exact ⟨rfl, posInt_one_le hs.1 hs.2, hs.2⟩
              · exact ih (fun x hx => hval x (List.mem_cons_of_mem s hx)) hrest sp htail

theorem selectOptimalNDCs_ok {input : NDCSelectionInput}
    {aiResponse : Result AISelectionRaw NError} {out : NDCSelectionOutput}
    (h : selectOptimalNDCs input aiResponse = .ok out) :
    ∀ sp ∈ out.selectedPackages,
      sp.totalUnits = sp.package.packageSize * sp.quantity ∧
      1 ≤ sp.quantity ∧ sp.quantity.den = 1 := by
  unfold selectOptimalNDCs at h
  by_cases h1 : input.availableNDCs.isEmpty
  · rw [if_pos h1] at h; exact SelOutcome.noConfusion h
  · rw [if_neg h1] at h
    by_cases h2 : input.quantityNeeded ≤ 0
    · rw [if_pos h2] at h; exact SelOutcome.noConfusion h
    · rw [if_neg h2] at h
      cases hresp : aiResponse with
      | err e => rw [hresp] at h; exact SelOutcome.noConfusion h
      | ok raw =>
          rw [hresp] at h
          simp only [] at h
          by_cases hvalid : validAISelection raw
          · rw [if_pos hvalid] at h
            cases hmap : mapSelections input.availableNDCs raw.selectedPackages with
            | error e => rw [hmap] at h; exact SelOutcome.noConfusion h
            | ok selectedPackages =>
                rw [hmap] at h
                simp only [] at h
                by_cases hemp : selectedPackages.isEmpty
                · rw [if_pos hemp] at h; exact SelOutcome.noConfusion h
                · rw [if_neg hemp] at h
                  obtain rfl := SelOutcome.ok.inj h
                  have hall : ∀ s ∈ raw.selectedPackages,
                      0 < s.quantity ∧ s.quantity.den = 1 := by
                    intro s hs
                    have := List.all_eq_true.mp hvalid s hs
                    exact ⟨of_decide_eq_true (Bool.and_elim_left this),
                      of_decide_eq_true (Bool.and_elim_right this)⟩
                  exact mapSelections_ok hall hmap
          · rw [if_neg hvalid] at h; exact SelOutcome.noConfusion h

theorem foldl_add_totalUnits (l : List SelectedPackage) (init : ℚ) :
    l.foldl (fun sum pkg => sum + pkg.totalUnits) init
      = init + (l.map SelectedPackage.totalUnits).sum := by
  induction l generalizing init with
  | nil => simp
  | cons a t ih =>
      simp only [List.foldl_cons, List.map_cons, List.sum_cons, ih]
      ring

theorem calculatePrescription_success_inversion
    {input : PrescriptionInput} {env : OrchestratorEnv} {r : CalculationResult}
    (h : calculatePrescription input env = .success r) :
    ∃ sig0 ndcs selection,
      env.sigResult = .ok sig0 ∧
      fetchNdcsStep input env = .ok ndcs ∧
      (activeOf ndcs).isEmpty ≠ true ∧
      ¬ (quantityOf input sig0 ≤ 0) ∧
      selectOptimalNDCs (selectionInputOf input env sig0 ndcs) env.aiSelection
        = .ok selection ∧
      r = successResultOf input env sig0 selection ndcs := by
  unfold calculatePrescription at h
  by_cases hv : validateInput input = true
  · rw [if_pos hv] at h
    cases hsig : env.sigResult with
    | err e => rw [hsig] at h; exact CalcOutcome.noConfusion h
    | ok sig0 =>
        rw [hsig] at h
        simp only [] at h
        cases hndc : fetchNdcsStep input env with
        | err e => rw [hndc] at h; exact CalcOutcome.noConfusion h
        | ok ndcs =>
            rw [hndc] at h
            simp only [] at h
            by_cases ha : (activeOf ndcs).isEmpty = true
            · rw [if_pos ha] at h; exact CalcOutcome.noConfusion h
            · rw [if_neg ha] at h
              by_cases hq : quantityOf input sig0 ≤ 0
              · rw [if_pos hq] at h; exact CalcOutcome.noConfusion h
              · rw [if_neg hq] at h
                cases hsel : selectOptimalNDCs (selectionInputOf input env sig0 ndcs)
                    env.aiSelection with
                | thrown e => rw [hsel] at h; exact CalcOutcome.noConfusion h
                | fail e => rw [hsel] at h; exact CalcOutcome.noConfusion h
                | ok selection =>
                    rw [hsel] at h
                    simp only [] at h
                    exact ⟨sig0, ndcs, selection, rfl, rfl, ha, hq, hsel,
                      (CalcOutcome.success.inj h).symm⟩
  · rw [if_neg hv] at h; exact CalcOutcome.noConfusion h

/-- Claim C4: in every successful `CalculationResult`, `fillDifference`
equals `totalUnitsDispensed − totalQuantityNeeded`, `totalUnitsDispensed`
equals the sum of the selected packages' `totalUnits`, and every selected
package satisfies `totalUnits = packageSize × quantity` with an integer
quantity of at least 1. -/
theorem C4_success_invariants (input : PrescriptionInput) (env : OrchestratorEnv)
    (r : CalculationResult) (h : calculatePrescription input env = .success r) :
    r.fillDifference = r.totalUnitsDispensed - (r.totalQuantityNeeded : ℚ) ∧
    r.totalUnitsDispensed = (r.selectedPackages.map SelectedPackage.totalUnits).sum ∧
    ∀ sp ∈ r.selectedPackages,
      sp.totalUnits = sp.package.packageSize * sp.quantity ∧
      1 ≤ sp.quantity ∧ sp.quantity.den = 1 := by
  obtain ⟨sig0, ndcs, selection, _, _, _, _, hsel, rfl⟩ :=
    calculatePrescription_success_inversion h
  refine ⟨rfl, ?_, ?_⟩
  · show selection.selectedPackages.foldl (fun sum pkg => sum + pkg.totalUnits) 0
      = (selection.selectedPackages.map SelectedPackage.totalUnits).sum
    rw [foldl_add_totalUnits, zero_add]
  · intro sp hsp
    exact selectOptimalNDCs_ok hsel sp hsp

/-! ## Claims C6, C7: terminal failures -/

/-- Claim C6: when the catalog lookup succeeds but no returned package is
active, the run fails with an `NDCNotFoundError` — a failure outcome, so
no packages are selected — and the package-selection adapter is never
invoked: the outcome does not depend on the selection oracle at all. -/
theorem C6_all_inactive_ndcNotFound (input : PrescriptionInput)
    (env : OrchestratorEnv) (sig0 : ParsedSIG) (pkgs : List NDCPackage)
    (hv : validateInput input = true)
    (hsig : env.sigResult = .ok sig0)
    (hndc : fetchNdcsStep input env = .ok pkgs)
    (hactive : (activeOf pkgs).isEmpty = true) :
    calculatePrescription input env
      = .failure (.ndcNotFound ("No active NDCs found for " ++ input.drugName))
          (someCtx (ctxBeforeQuantity input env sig0)) ∧
    ∀ sel2 : Result AISelectionRaw NError,
      calculatePrescription input { env with aiSelection := sel2 }
        = calculatePrescription input env := by
  have main : ∀ e2 : OrchestratorEnv, e2.sigResult = .ok sig0 →
      fetchNdcsStep input e2 = .ok pkgs →
      calculatePrescription input e2
        = .failure (.ndcNotFound ("No active NDCs found for " ++ input.drugName))
            (someCtx (ctxBeforeQuantity input e2 sig0)) := by
    intro e2 hsig2 hndc2
    unfold calculatePrescription
    simp [hv, hsig2, hndc2, hactive]
  exact ⟨main env hsig hndc, fun sel2 =>
    (main { env with aiSelection := sel2 } hsig hndc).trans
      (main env hsig hndc).symm⟩

/-- Claim C7: when the derived quantity is ≤ 0, the run fails with an
`InvalidSIGError` and the outcome carries the accumulated context,
including the parsed SIG and the quantityNeeded computed before the
failure. -/
theorem C7_nonpositive_quantity_invalidSIG (input : PrescriptionInput)
    (env : OrchestratorEnv) (sig0 : ParsedSIG) (pkgs : List NDCPackage)
    (hv : validateInput input = true)
    (hsig : env.sigResult = .ok sig0)
    (hndc : fetchNdcsStep input env = .ok pkgs)
    (hactive : (activeOf pkgs).isEmpty = false)
    (hq : quantityOf input sig0 ≤ 0) :
    calculatePrescription input env
      = .failure (.invalidSIG input.sig
          "Cannot calculate quantity from parsed SIG - result is zero or negative")
          (some (ctxAfterQuantity input env sig0)) ∧
    (ctxAfterQuantity input env sig0).parsedSIG = some (enhancedSIG sig0 input) ∧
    (ctxAfterQuantity input env sig0).quantityNeeded = some (quantityOf input sig0) := by
  refine ⟨?_, rfl, rfl⟩
  have hs : someCtx (ctxAfterQuantity input env sig0)
      = some (ctxAfterQuantity input env sig0) := by
    unfold someCtx contextNonempty ctxAfterQuantity ctxBeforeQuantity
    simp
  unfold calculatePrescription
  simp [hv, hsig, hndc, hactive, hq, hs]

/-! ## Claim C2: candidate filtering -/

/-- The candidate-set computation exactly as claim C2 states it: both
ingredient matching and strength matching applied to the active packages,
with fallback to the unfiltered active set when that filtering yields no
candidates. -/
def claimC2Candidates (activeNDCs : List NDCPackage)
    (normalizedName requestedStrength : String) : List NDCPackage :=
  let filtered :=
    filterNDCsByStrength (filterNDCsByDrugName activeNDCs normalizedName) requestedStrength
  if filtered.length > 0 then filtered else activeNDCs

/-- Claim C2 as amended: the candidate set passed to package selection is
obtained by ingredient matching only — `filterNDCsByDrugName` over the
active set with fallback to the unfiltered active set when it empties —
and the strength extracted from the drug name plays no part
(`filterNDCsByStrength` does not appear in the computation). -/
theorem C2_candidates_ingredient_only (input : PrescriptionInput)
    (env : OrchestratorEnv) (r : CalculationResult)
    (h : calculatePrescription input env = .success r) :
    ∃ sig0 ndcs,
      env.sigResult = .ok sig0 ∧
      fetchNdcsStep input env = .ok ndcs ∧
      (selectionInputOf input env sig0 ndcs).availableNDCs
        = (if (filterNDCsByDrugName (activeOf ndcs)
                (normalizeDrugNameForMatch (nameForMatch input env))).length > 0
           then filterNDCsByDrugName (activeOf ndcs)
                (normalizeDrugNameForMatch (nameForMatch input env))
           else activeOf ndcs) ∧
      r.availableNDCs = some ((selectionInputOf input env sig0 ndcs).availableNDCs) := by
  obtain ⟨sig0, ndcs, selection, hsig, hndc, _, _, _, rfl⟩ :=
    calculatePrescription_success_inversion h
  exact ⟨sig0, ndcs, hsig, hndc, rfl, rfl⟩

/-! ## A concrete successful run, shared by the orchestrator witnesses -/

/-- Active 30-tablet 500mg Metformin package. -/
def cPkgA : NDCPackage :=
  { ndc := "00000000001"
    packageSize := 30
    dosageForm := "TABLET"
    strength := "500mg"
    manufacturer := "M"
    status := .active
    genericName := "Metformin" }

/-- Active 60-tablet 1000mg Metformin package. -/
def cPkgB : NDCPackage :=
  { ndc := "00000000002"
    packageSize := 60
    dosageForm := "TABLET"
    strength := "1000mg"
    manufacturer := "M"
    status := .active
    genericName := "Metformin" }

/-- Catalog answer of the concrete run. -/
def cNdcs : List NDCPackage := [cPkgA, cPkgB]

/-- Input of the concrete run. -/
def cInput : PrescriptionInput :=
  { drugName := "Metformin 500mg"
    sig := "Take one tablet by mouth once daily"
    daysSupply := 30 }

/-- Parsed SIG of the concrete run. -/
def cSig0 : ParsedSIG :=
  { dose := 1
    unit := "tablet"
    frequency := .times_per_day 1
    confidence := 1
    reasoning := "clear"
    originalSIG := "Take one tablet by mouth once daily" }

/-- AI selection response of the concrete run: one unit of package A. -/
def cAIRaw : AISelectionRaw :=
  { selectedPackages := [{ ndc := "00000000001", quantity := 1, reasoning := "fits" }]
    warnings := []
    overallReasoning := "use A" }

/-- Adapter outcomes of the concrete run (RxCUI normalization fails,
which the pipeline recovers from). -/
def cEnv : OrchestratorEnv :=
  { sigResult := .ok cSig0
    rxcuiResult := .err (.drugNormalization "Metformin 500mg" "no match")
    ndcsResult1 := .ok cNdcs
    ndcsResult2 := .ok []
    aiSelection := .ok cAIRaw }

/-- What the selector returns on the concrete run. -/
def cSelOut : NDCSelectionOutput :=
  { selectedPackages := [{ package := cPkgA
                           quantity := 1
                           totalUnits := cPkgA.packageSize * 1 }]
    reasoning := "use A"
    warnings := [] }

theorem cSig0_enhanced : enhancedSIG cSig0 cInput = cSig0 := by decide

theorem cQuantity : quantityOf cInput cSig0 = 30 := by
  unfold quantityOf
  rw [cSig0_enhanced, calculateTotalQuantity_eq_ceil_rawQuantity]
  have hr : rawQuantity cSig0 cInput.daysSupply = 30 := by
    simp [rawQuantity, cSig0, cInput, doseToUse, dailyFactor, effectiveDays]
  rw [hr]
  norm_num

theorem cSelection_ok :
    selectOptimalNDCs (selectionInputOf cInput cEnv cSig0 cNdcs) cEnv.aiSelection
      = .ok cSelOut := by
  have hsi : selectionInputOf cInput cEnv cSig0 cNdcs =
      { availableNDCs := candidatesOf cInput cEnv cNdcs
        quantityNeeded := ((30 : ℤ) : ℚ)
        unit := cSig0.unit
        daysSupply := cInput.daysSupply
        parsedSIG := some cSig0
        prescriptionContext := some (cInput.drugName ++ " - " ++ cInput.sig) } := by
    unfold selectionInputOf
    rw [cSig0_enhanced, cQuantity]
  rw [hsi]
  rfl

theorem calculatePrescription_success_eval (input : PrescriptionInput)
    (env : OrchestratorEnv) (sig0 : ParsedSIG) (ndcs : List NDCPackage)
    (selection : NDCSelectionOutput)
    (hv : validateInput input = true)
    (hsig : env.sigResult = .ok sig0)
    (hndc : fetchNdcsStep input env = .ok ndcs)
    (ha : (activeOf ndcs).isEmpty = false)
    (hq : ¬ (quantityOf input sig0 ≤ 0))
    (hsel : selectOptimalNDCs (selectionInputOf input env sig0 ndcs) env.aiSelection
      = .ok selection) :
    calculatePrescription input env
      = .success (successResultOf input env sig0 selection ndcs) := by
  unfold calculatePrescription
  simp [hv, hsig, hndc, ha, hq, hsel]

theorem cRun_success :
    calculatePrescription cInput cEnv
      = .success (successResultOf cInput cEnv cSig0 cSelOut cNdcs) :=
  calculatePrescription_success_eval cInput cEnv cSig0 cNdcs cSelOut
    (by decide) rfl rfl (by decide)
    (by rw [cQuantity]; norm_num) cSelection_ok

/-- Witness for C4 on the concrete successful run. -/
theorem C4_witness :
    (successResultOf cInput cEnv cSig0 cSelOut cNdcs).fillDifference
      = (successResultOf cInput cEnv cSig0 cSelOut cNdcs).totalUnitsDispensed
        - ((successResultOf cInput cEnv cSig0 cSelOut cNdcs).totalQuantityNeeded : ℚ) ∧
    (successResultOf cInput cEnv cSig0 cSelOut cNdcs).totalUnitsDispensed
      = ((successResultOf cInput cEnv cSig0 cSelOut cNdcs).selectedPackages.map
          SelectedPackage.totalUnits).sum ∧
    ∀ sp ∈ (successResultOf cInput cEnv cSig0 cSelOut cNdcs).selectedPackages,
      sp.totalUnits = sp.package.packageSize * sp.quantity ∧
      1 ≤ sp.quantity ∧ sp.quantity.den = 1 :=
  C4_success_invariants cInput cEnv _ cRun_success

/-- Counterexample to claim C2 as stated: on the concrete run the input
drug name carries strength `500mg`, package B's strength `1000mg` does not
match it, yet the candidate set the code passes on (visible as
`availableNDCs`) still contains B — it differs from the claim's
ingredient-and-strength filtering. -/
theorem C2_counterexample :
    calculatePrescription cInput cEnv
      = .success (successResultOf cInput cEnv cSig0 cSelOut cNdcs) ∧
    (extractBaseDrugName cInput.drugName).strength = some "500mg" ∧
    (successResultOf cInput cEnv cSig0 cSelOut cNdcs).availableNDCs
      = some [cPkgA, cPkgB] ∧
    claimC2Candidates (activeOf cNdcs)
      (normalizeDrugNameForMatch (nameForMatch cInput cEnv)) "500mg" = [cPkgA] ∧
    (successResultOf cInput cEnv cSig0 cSelOut cNdcs).availableNDCs
      ≠ some (claimC2Candidates (activeOf cNdcs)
          (normalizeDrugNameForMatch (nameForMatch cInput cEnv)) "500mg") :=
  ⟨cRun_success, by decide, by decide, by decide, by decide⟩

/-- Witness for the amended C2 on the concrete successful run. -/
theorem C2_witness :
    ∃ sig0 ndcs,
      cEnv.sigResult = .ok sig0 ∧
      fetchNdcsStep cInput cEnv = .ok ndcs ∧
      (selectionInputOf cInput cEnv sig0 ndcs).availableNDCs
        = (if (filterNDCsByDrugName (activeOf ndcs)
                (normalizeDrugNameForMatch (nameForMatch cInput cEnv))).length > 0
           then filterNDCsByDrugName (activeOf ndcs)
                (normalizeDrugNameForMatch (nameForMatch cInput cEnv))
           else activeOf ndcs) ∧
      (successResultOf cInput cEnv cSig0 cSelOut cNdcs).availableNDCs
        = some ((selectionInputOf cInput cEnv sig0 ndcs).availableNDCs) :=
  C2_candidates_ingredient_only cInput cEnv _ cRun_success

/-! ## Witnesses for C6 and C7 -/

/-- Inactive-only catalog package. -/
def cPkgI : NDCPackage :=
  { ndc := "00000000003"
    packageSize := 30
    dosageForm := "TABLET"
    strength := "500mg"
    manufacturer := "M"
    status := .inactive
    genericName := "Metformin"
    marketingEndDate := some "20230101" }

/-- Environment whose catalog lookup returns only inactive packages. -/
def cEnvI : OrchestratorEnv := { cEnv with ndcsResult1 := .ok [cPkgI] }

/-- Witness for C6: all returned packages inactive at a concrete run. -/
theorem C6_witness :
    calculatePrescription cInput cEnvI
      = .failure (.ndcNotFound ("No active NDCs found for " ++ cInput.drugName))
          (someCtx (ctxBeforeQuantity cInput cEnvI cSig0)) ∧
    calculatePrescription cInput
        { cEnvI with aiSelection := .err (.aiService "NDC Selector" "unavailable") }
      = calculatePrescription cInput cEnvI :=
  ⟨(C6_all_inactive_ndcNotFound cInput cEnvI cSig0 [cPkgI]
      (by decide) rfl rfl (by decide)).1,
   (C6_all_inactive_ndcNotFound cInput cEnvI cSig0 [cPkgI]
      (by decide) rfl rfl (by decide)).2 (.err (.aiService "NDC Selector" "unavailable"))⟩

/-- Parsed SIG with a zero dose (what an adapter could hand over at the
type level); its derived quantity is 0. -/
def cSig0z : ParsedSIG := { cSig0 with dose := 0 }

/-- Environment of the zero-quantity run. -/
def cEnvZ : OrchestratorEnv := { cEnv with sigResult := .ok cSig0z }

theorem cSig0z_enhanced : enhancedSIG cSig0z cInput = cSig0z := by decide

theorem cQuantityZ : quantityOf cInput cSig0z = 0 := by
  unfold quantityOf
  rw [cSig0z_enhanced, calculateTotalQuantity_eq_ceil_rawQuantity]
  have hr : rawQuantity cSig0z cInput.daysSupply = 0 := by
    simp [rawQuantity, cSig0z, cSig0, cInput, doseToUse, dailyFactor, effectiveDays]
  rw [hr]
  norm_num

/-- Witness for C7: a zero derived quantity at a concrete run. -/
theorem C7_witness :
    calculatePrescription cInput cEnvZ
      = .failure (.invalidSIG cInput.sig
          "Cannot calculate quantity from parsed SIG - result is zero or negative")
          (some (ctxAfterQuantity cInput cEnvZ cSig0z)) ∧
    (ctxAfterQuantity cInput cEnvZ cSig0z).parsedSIG
      = some (enhancedSIG cSig0z cInput) ∧
    (ctxAfterQuantity cInput cEnvZ cSig0z).quantityNeeded
      = some (quantityOf cInput cSig0z) :=
  C7_nonpositive_quantity_invalidSIG cInput cEnvZ cSig0z cNdcs
    (by decide) rfl rfl (by decide) (by rw [cQuantityZ])

end NDCCalc
